import Mathlib

/-!
Shallow embedding of `src/sistema_cads.py`, a console customer/order registry
over SQLite, and proofs about its data operations.

The database state is modelled explicitly: the two tables `clientes` and
`pedidos` as lists of rows (insertion order), plus the AUTOINCREMENT counters.
SQL values that may be NULL are modelled with `Option`; the current date and
the outcome of Python's `int(...)` / `float(...)` parses are oracle inputs.
Connection lifecycle (claim about acquisition/release) is modelled separately
as event traces with fault injection.
-/

namespace SistemaCads

/-- A row of the `clientes` table: `id INTEGER PRIMARY KEY AUTOINCREMENT`,
`nome TEXT NOT NULL`, `email TEXT NOT NULL UNIQUE`, `telefone TEXT`
(nullable). -/
structure Cliente where
  id : Int
  nome : String
  email : String
  telefone : Option String
deriving DecidableEq, Repr

/-- A row of the `pedidos` table: `id INTEGER PRIMARY KEY AUTOINCREMENT`,
`produto TEXT NOT NULL`, `valor REAL NOT NULL`, `data DATE NOT NULL` (stored
as ISO text), `cliente_id INTEGER NOT NULL` with
`FOREIGN KEY (cliente_id) REFERENCES clientes (id) ON DELETE CASCADE`. -/
structure Pedido where
  id : Int
  produto : String
  valor : Rat
  data : String
  cliente_id : Int
deriving DecidableEq, Repr

/-- The database state: both tables (rows in insertion order) and the
AUTOINCREMENT counters for the two surrogate keys. -/
structure DB where
  clientes : List Cliente
  pedidos : List Pedido
  nextClienteId : Int
  nextPedidoId : Int
deriving DecidableEq, Repr

/-- `setup_database` on a fresh store: both tables exist and are empty, the
AUTOINCREMENT counters start at 1. -/
def setup_database : DB :=
  { clientes := [], pedidos := [], nextClienteId := 1, nextPedidoId := 1 }

/-- Store-level `INSERT INTO clientes (nome, email, telefone) VALUES (?,?,?)`:
the schema enforces `nome NOT NULL` and `email NOT NULL UNIQUE`, while
`telefone` may be NULL. `none` is the statement raising
`sqlite3.IntegrityError` (the row is not inserted). -/
def storeInsertCliente (db : DB) (nome email telefone : Option String) :
    Option DB :=
  match nome, email with
  | some n, some e =>
    if db.clientes.any (fun c => c.email = e) then none
    else some { db with
      clientes := db.clientes ++ [⟨db.nextClienteId, n, e, telefone⟩],
      nextClienteId := db.nextClienteId + 1 }
  | _, _ => none

/-- Message printed by `adicionar_cliente`. -/
inductive AddClienteMsg where
  | ok (nome : String)
  | emailConflict (email : String)
deriving DecidableEq, Repr

/-- `adicionar_cliente(nome, email, telefone)`: inserts the new customer; on
`IntegrityError` reports that the email is already registered and leaves the
database unchanged. The application always supplies the three fields as text
(never NULL). -/
def adicionar_cliente (db : DB) (nome email telefone : String) :
    DB × AddClienteMsg :=
  match storeInsertCliente db (some nome) (some email) (some telefone) with
  | some db2 => (db2, .ok nome)
  | none => (db, .emailConflict email)

/-- `listar_clientes`: `SELECT id, nome, email, telefone FROM clientes` with
no ORDER BY, i.e. insertion order. -/
def listar_clientes (db : DB) : List (Int × String × String × Option String) :=
  db.clientes.map (fun c => (c.id, c.nome, c.email, c.telefone))

/-- Message printed by `atualizar_cliente`. -/
inductive UpdateMsg where
  | ok (id : Int)
  | notFound (id : Int)
  | emailConflict (email : String)
deriving DecidableEq, Repr

/-- `atualizar_cliente(cliente_id, nome, email, telefone)`:
`UPDATE clientes SET nome = ?, email = ?, telefone = ? WHERE id = ?`.
When no row matches, `rowcount == 0` and it reports not-found. When the new
email is already held by a different row, the UNIQUE constraint raises
`IntegrityError` and the atomic statement leaves every row unchanged.
Otherwise the matching row is overwritten. -/
def atualizar_cliente (db : DB) (cliente_id : Int) (nome email telefone : String) :
    DB × UpdateMsg :=
  if db.clientes.any (fun c => c.id = cliente_id) then
    if db.clientes.any (fun c => c.id ≠ cliente_id ∧ c.email = email) then
      (db, .emailConflict email)
    else
      ({ db with clientes := db.clientes.map (fun c =>
          if c.id = cliente_id then
            { c with nome := nome, email := email, telefone := some telefone }
          else c) },
       .ok cliente_id)
  else (db, .notFound cliente_id)

/-- Message printed by `deletar_cliente`. -/
inductive DeleteMsg where
  | ok (id : Int)
  | notFound (id : Int)
deriving DecidableEq, Repr

/-- `DELETE FROM clientes WHERE id = ?`, parametrized by whether
`PRAGMA foreign_keys = ON` is active on the connection: the
`ON DELETE CASCADE` on `pedidos.cliente_id` removes the owned orders exactly
when enforcement is on; `rowcount` counts only the deleted customers. -/
def deleteClienteStmt (fkOn : Bool) (db : DB) (cliente_id : Int) :
    DB × DeleteMsg :=
  if db.clientes.any (fun c => c.id = cliente_id) then
    ({ db with
       clientes := db.clientes.filter (fun c => c.id ≠ cliente_id),
       pedidos := if fkOn then
           db.pedidos.filter (fun p => p.cliente_id ≠ cliente_id)
         else db.pedidos },
     .ok cliente_id)
  else (db, .notFound cliente_id)

/-- `deletar_cliente(cliente_id)`: executes `PRAGMA foreign_keys = ON;` on its
fresh connection and then the DELETE, so the cascade is enforced. -/
def deletar_cliente (db : DB) (cliente_id : Int) : DB × DeleteMsg :=
  deleteClienteStmt true db cliente_id

/-- Message printed by `adicionar_pedido`. -/
inductive AddPedidoMsg where
  | ok (cliente_id : Int)
  | clienteNotFound (cliente_id : Int)
deriving DecidableEq, Repr

/-- `adicionar_pedido(cliente_id, produto, valor)` on the day whose ISO date
is `hoje`: first `SELECT id FROM clientes WHERE id = ?`; when it fetches
nothing the function reports not-found and returns without inserting;
otherwise it inserts the order dated `hoje`. -/
def adicionar_pedido (db : DB) (cliente_id : Int) (produto : String)
    (valor : Rat) (hoje : String) : DB × AddPedidoMsg :=
  if db.clientes.any (fun c => c.id = cliente_id) then
    ({ db with
       pedidos := db.pedidos ++
         [⟨db.nextPedidoId, produto, valor, hoje, cliente_id⟩],
       nextPedidoId := db.nextPedidoId + 1 },
     .ok cliente_id)
  else (db, .clienteNotFound cliente_id)

/-- One result row of
`SELECT p.id, p.produto, p.valor, p.data, c.nome, c.email FROM pedidos p
JOIN clientes c ON p.cliente_id = c.id`. -/
structure PedidoRow where
  pid : Int
  produto : String
  valor : Rat
  data : String
  nome : String
  email : String
deriving DecidableEq, Repr

/-- The `ORDER BY c.nome, p.data DESC` key: customer name ascending, then
order date descending (SQLite compares TEXT bytewise, which on ISO dates is
chronological order). -/
def rowLE (a b : PedidoRow) : Bool :=
  decide (a.nome < b.nome ∨ (a.nome = b.nome ∧ b.data ≤ a.data))

/-- The inner join of `pedidos` with `clientes` on `p.cliente_id = c.id`,
before ordering: each order paired with its owning customer (ids are primary
keys, so `find?` retrieves the unique owner). -/
def joinRows (db : DB) : List PedidoRow :=
  db.pedidos.filterMap (fun p =>
    (db.clientes.find? (fun c => c.id = p.cliente_id)).map (fun c =>
      ⟨p.id, p.produto, p.valor, p.data, c.nome, c.email⟩))

/-- `listar_pedidos_com_clientes`: the join, ordered by customer name
ascending then order date descending. -/
def listar_pedidos_com_clientes (db : DB) : List PedidoRow :=
  (joinRows db).mergeSort rowLE

/-- One of the six data operations the menu loop can dispatch to, with the
operator-supplied arguments (and, for an order, the current date). -/
inductive Op where
  | addCliente (nome email telefone : String)
  | listClientes
  | updateCliente (id : Int) (nome email telefone : String)
  | delCliente (id : Int)
  | addPedido (cliente_id : Int) (produto : String) (valor : Rat) (hoje : String)
  | listPedidos
deriving DecidableEq, Repr

/-- State transition of one data operation (the list operations leave the
database unchanged). -/
def applyOp (db : DB) : Op → DB
  | .addCliente n e t => (adicionar_cliente db n e t).1
  | .listClientes => db
  | .updateCliente i n e t => (atualizar_cliente db i n e t).1
  | .delCliente i => (deletar_cliente db i).1
  | .addPedido c p v h => (adicionar_pedido db c p v h).1
  | .listPedidos => db

/-- Running a sequence of operations from the freshly initialized database. -/
def run (ops : List Op) : DB :=
  ops.foldl applyOp setup_database

/-- No orphaned orders: every order's `cliente_id` is the id of some existing
customer. -/
def OrphanFree (db : DB) : Prop :=
  ∀ p ∈ db.pedidos, ∃ c ∈ db.clientes, c.id = p.cliente_id

/-- Connection lifecycle events observable at the store boundary. -/
inductive Ev where
  | openConn
  | closeConn
deriving DecidableEq, Repr

/-- Fault injection for one execution of a data operation: whether
`sqlite3.connect` raises, and whether the SQL statement raises a store-level
error. -/
structure Faults where
  connectFails : Bool
  execFails : Bool
deriving DecidableEq, Repr

/-- Control flow of `listar_clientes`, which has no try/finally: connect,
execute, fetchall, close, in sequence. An exception at any step propagates
out of the function, skipping the remaining steps. Returns the event trace
and whether an exception escaped. -/
def listarClientesTrace (f : Faults) : List Ev × Bool :=
  if f.connectFails then ([], true)
  else if f.execFails then ([.openConn], true)
  else ([.openConn, .closeConn], false)

/-- Control flow of `listar_pedidos_com_clientes`, which has no try/finally:
same shape as `listarClientesTrace`. -/
def listarPedidosTrace (f : Faults) : List Ev × Bool :=
  if f.connectFails then ([], true)
  else if f.execFails then ([.openConn], true)
  else ([.openConn, .closeConn], false)

/-- Control flow of `adicionar_cliente` (try/except/finally): when
`sqlite3.connect` raises, `except Exception` catches and prints, but the
`finally` clause then evaluates the unbound local `conn`, and that error
escapes with no connection ever opened. Once the connection is open, the
`finally` closes it on the success path and on every caught-exception path
(`IntegrityError` or any other statement error). -/
def adicionarClienteTrace (f : Faults) : List Ev × Bool :=
  if f.connectFails then ([], true)
  else ([.openConn, .closeConn], false)

/-- Control flow of `atualizar_cliente` (try/except/finally): same shape as
`adicionarClienteTrace`. -/
def atualizarClienteTrace (f : Faults) : List Ev × Bool :=
  if f.connectFails then ([], true)
  else ([.openConn, .closeConn], false)

/-- Control flow of `deletar_cliente` (try/except/finally): same shape as
`adicionarClienteTrace`. -/
def deletarClienteTrace (f : Faults) : List Ev × Bool :=
  if f.connectFails then ([], true)
  else ([.openConn, .closeConn], false)

/-- Control flow of `adicionar_pedido` (try/except/finally): same shape as
`adicionarClienteTrace`; the early `return` on a missing customer still runs
the `finally`. -/
def adicionarPedidoTrace (f : Faults) : List Ev × Bool :=
  if f.connectFails then ([], true)
  else ([.openConn, .closeConn], false)

/-- What one iteration of the `menu` loop did. -/
inductive MenuAction where
  | addedCliente (m : AddClienteMsg)
  | listedClientes (rows : List (Int × String × String × Option String))
  | updatedCliente (m : UpdateMsg)
  | deletedCliente (m : DeleteMsg)
  | addedPedido (m : AddPedidoMsg)
  | listedPedidos (rows : List PedidoRow)
  | invalidNumber
  | invalidOption
  | sair
deriving DecidableEq, Repr

/-- The operator's console answers for one iteration: the menu choice, the
text fields, and the results of `int(...)` on the id field and `float(...)`
on the amount field (`none` models the parse raising ValueError). -/
structure MenuInput where
  escolha : String
  nome : String
  email : String
  telefone : String
  idIn : Option Int
  produto : String
  valorIn : Option Rat
deriving DecidableEq, Repr

/-- One iteration of the `menu` loop on the day whose ISO date is `hoje`:
dispatch on the choice; for choices 3, 4 and 5 the id (and for 5 the
amount) is parsed inside try/except ValueError, and a failed parse prints
the invalid-number message without invoking the data operation (for choice
5 a failed id parse happens before the amount is even read). The Bool is
whether the loop continues. -/
def menuStep (db : DB) (hoje : String) (inp : MenuInput) :
    DB × MenuAction × Bool :=
  if inp.escolha = "1" then
    let r := adicionar_cliente db inp.nome inp.email inp.telefone
    (r.1, .addedCliente r.2, true)
  else if inp.escolha = "2" then
    (db, .listedClientes (listar_clientes db), true)
  else if inp.escolha = "3" then
    match inp.idIn with
    | none => (db, .invalidNumber, true)
    | some i =>
      let r := atualizar_cliente db i inp.nome inp.email inp.telefone
      (r.1, .updatedCliente r.2, true)
  else if inp.escolha = "4" then
    match inp.idIn with
    | none => (db, .invalidNumber, true)
    | some i =>
      let r := deletar_cliente db i
      (r.1, .deletedCliente r.2, true)
  else if inp.escolha = "5" then
    match inp.idIn, inp.valorIn with
    | some i, some v =>
      let r := adicionar_pedido db i inp.produto v hoje
      (r.1, .addedPedido r.2, true)
    | _, _ => (db, .invalidNumber, true)
  else if inp.escolha = "6" then
    (db, .listedPedidos (listar_pedidos_com_clientes db), true)
  else if inp.escolha = "0" then
    (db, .sair, false)
  else
    (db, .invalidOption, true)

/-- A small concrete state used to instantiate the theorems: Ana owns orders
1 and 2, Bia owns order 3. -/
def sampleDB : DB :=
  { clientes := [⟨1, "Ana", "ana@x.com", some "111"⟩,
                 ⟨2, "Bia", "bia@x.com", none⟩],
    pedidos := [⟨1, "Widget", 20, "2026-10-10", 1⟩,
                ⟨2, "Gadget", 5, "2026-10-11", 1⟩,
                ⟨3, "Thing", 7, "2026-10-12", 2⟩],
    nextClienteId := 3, nextPedidoId := 4 }

/-- C2: with a customer already holding email `E`, `adicionar_cliente` with
email `E` reports the uniqueness conflict and returns the database unchanged:
no row is inserted and the existing rows are untouched. -/
theorem adicionar_cliente_email_conflict (db : DB) (E nome telefone : String)
    (h : ∃ c ∈ db.clientes, c.email = E) :
    adicionar_cliente db nome E telefone = (db, AddClienteMsg.emailConflict E) := by
  obtain ⟨c, hc, he⟩ := h
  have hany : db.clientes.any (fun x => decide (x.email = E)) = true := by
    rw [List.any_eq_true]
    exact ⟨c, hc, by simpa using he⟩
  simp [adicionar_cliente, storeInsertCliente, hany]

theorem adicionar_cliente_email_conflict_witness :
    (∃ c ∈ sampleDB.clientes, c.email = "ana@x.com") ∧
    adicionar_cliente sampleDB "Caio" "ana@x.com" "333" =
      (sampleDB, AddClienteMsg.emailConflict "ana@x.com") :=
  ⟨⟨⟨1, "Ana", "ana@x.com", some "111"⟩, by decide, rfl⟩,
   adicionar_cliente_email_conflict sampleDB "ana@x.com" "Caio" "333"
     ⟨⟨1, "Ana", "ana@x.com", some "111"⟩, by decide, rfl⟩⟩

/-- C3: with a customer at id `I` and a different customer holding email `E`,
`atualizar_cliente I nome E telefone` reports the uniqueness conflict and
returns the database unchanged: no field of the target row is updated. -/
theorem atualizar_cliente_email_conflict (db : DB) (I : Int) (E nome telefone : String)
    (hI : ∃ c ∈ db.clientes, c.id = I)
    (hE : ∃ c ∈ db.clientes, c.id ≠ I ∧ c.email = E) :
    atualizar_cliente db I nome E telefone = (db, UpdateMsg.emailConflict E) := by
  obtain ⟨c, hc, hcid⟩ := hI
  obtain ⟨d, hd, hdid, hde⟩ := hE
  have h1 : db.clientes.any (fun x => decide (x.id = I)) = true := by
    rw [List.any_eq_true]
    exact ⟨c, hc, by simpa using hcid⟩
  have h2 : db.clientes.any (fun x => decide (x.id ≠ I ∧ x.email = E)) = true := by
    rw [List.any_eq_true]
    exact ⟨d, hd, by simp [hdid, hde]⟩
  unfold atualizar_cliente
  rw [if_pos h1, if_pos h2]

theorem atualizar_cliente_email_conflict_witness :
    (∃ c ∈ sampleDB.clientes, c.id = 2) ∧
    (∃ c ∈ sampleDB.clientes, c.id ≠ 2 ∧ c.email = "ana@x.com") ∧
    atualizar_cliente sampleDB 2 "Bia" "ana@x.com" "222" =
      (sampleDB, UpdateMsg.emailConflict "ana@x.com") :=
  ⟨⟨⟨2, "Bia", "bia@x.com", none⟩, by decide, rfl⟩,
   ⟨⟨1, "Ana", "ana@x.com", some "111"⟩, by decide, by decide, rfl⟩,
   atualizar_cliente_email_conflict sampleDB 2 "ana@x.com" "Bia" "222"
     ⟨⟨2, "Bia", "bia@x.com", none⟩, by decide, rfl⟩
     ⟨⟨1, "Ana", "ana@x.com", some "111"⟩, by decide, by decide, rfl⟩⟩

/-- C4: with no customer at id `I`, `adicionar_pedido` reports that the
customer was not found and returns the database unchanged: in particular the
orders table is exactly as before, nothing was inserted. -/
theorem adicionar_pedido_cliente_not_found (db : DB) (I : Int) (produto : String)
    (valor : Rat) (hoje : String) (h : ∀ c ∈ db.clientes, c.id ≠ I) :
    adicionar_pedido db I produto valor hoje = (db, AddPedidoMsg.clienteNotFound I) := by
  have hany : db.clientes.any (fun x => decide (x.id = I)) = false := by
    rw [List.any_eq_false]
    intro c hc
    simpa using h c hc
  simp [adicionar_pedido, hany]

theorem adicionar_pedido_cliente_not_found_witness :
    (∀ c ∈ sampleDB.clientes, c.id ≠ 9) ∧
    adicionar_pedido sampleDB 9 "Widget" 20 "2026-10-12" =
      (sampleDB, AddPedidoMsg.clienteNotFound 9) :=
  ⟨by decide,
   adicionar_pedido_cliente_not_found sampleDB 9 "Widget" 20 "2026-10-12" (by decide)⟩

/-- C8: with no customer at id `I`, `atualizar_cliente` matches zero rows
(`rowcount == 0`), reports not-found and returns the database unchanged:
both tables are exactly as before. -/
theorem atualizar_cliente_not_found (db : DB) (I : Int) (nome email telefone : String)
    (h : ∀ c ∈ db.clientes, c.id ≠ I) :
    atualizar_cliente db I nome email telefone = (db, UpdateMsg.notFound I) := by
  have hany : db.clientes.any (fun x => decide (x.id = I)) = false := by
    rw [List.any_eq_false]
    intro c hc
    simpa using h c hc
  simp [atualizar_cliente, hany]

theorem atualizar_cliente_not_found_witness :
    (∀ c ∈ sampleDB.clientes, c.id ≠ 9) ∧
    atualizar_cliente sampleDB 9 "Zoe" "zoe@x.com" "999" =
      (sampleDB, UpdateMsg.notFound 9) :=
  ⟨by decide,
   atualizar_cliente_not_found sampleDB 9 "Zoe" "zoe@x.com" "999" (by decide)⟩

/-- C5 counterexample: `listar_clientes` has no try/finally, so when the
query raises a store-level error the already-opened connection is never
closed and the exception escapes — the claimed release-on-every-exit-path
fails on this operation. -/
theorem listar_clientes_leaks_on_query_error :
    listarClientesTrace ⟨false, true⟩ = ([Ev.openConn], true) ∧
    Ev.closeConn ∉ (listarClientesTrace ⟨false, true⟩).1 := by
  constructor
  · rfl
  · intro hmem
    simp [listarClientesTrace] at hmem

/-- C5 amended: the four try/finally operations (`adicionar_cliente`,
`atualizar_cliente`, `deletar_cliente`, `adicionar_pedido`) close the
connection on every exit path once it is open, including when the statement
raises; the two list operations close it only when the query succeeds — a
store-level error there skips the close; and when connection acquisition
itself fails no operation opens (or can close) a connection. -/
theorem connection_release_discipline (f : Faults) (hc : f.connectFails = false) :
    (adicionarClienteTrace f).1 = [Ev.openConn, Ev.closeConn] ∧
    (atualizarClienteTrace f).1 = [Ev.openConn, Ev.closeConn] ∧
    (deletarClienteTrace f).1 = [Ev.openConn, Ev.closeConn] ∧
    (adicionarPedidoTrace f).1 = [Ev.openConn, Ev.closeConn] ∧
    (f.execFails = false →
      (listarClientesTrace f).1 = [Ev.openConn, Ev.closeConn] ∧
      (listarPedidosTrace f).1 = [Ev.openConn, Ev.closeConn]) := by
  refine ⟨?_, ?_, ?_, ?_, ?_⟩ <;>
    simp [adicionarClienteTrace, atualizarClienteTrace, deletarClienteTrace,
      adicionarPedidoTrace, listarClientesTrace, listarPedidosTrace, hc]
  intro he
  simp [he]

theorem connection_release_discipline_witness :
    (Faults.mk false true).connectFails = false ∧
    (adicionarClienteTrace ⟨false, true⟩).1 = [Ev.openConn, Ev.closeConn] ∧
    (atualizarClienteTrace ⟨false, true⟩).1 = [Ev.openConn, Ev.closeConn] ∧
    (deletarClienteTrace ⟨false, true⟩).1 = [Ev.openConn, Ev.closeConn] ∧
    (adicionarPedidoTrace ⟨false, true⟩).1 = [Ev.openConn, Ev.closeConn] ∧
    ((Faults.mk false true).execFails = false →
      (listarClientesTrace ⟨false, true⟩).1 = [Ev.openConn, Ev.closeConn] ∧
      (listarPedidosTrace ⟨false, true⟩).1 = [Ev.openConn, Ev.closeConn]) :=
  ⟨rfl, connection_release_discipline ⟨false, true⟩ rfl⟩

/-- C9: in the menu loop, for the choices that read a numeric field (3, 4
and 5 read a customer id, 5 also reads an amount), a failed numeric parse
(Python `ValueError`) is caught, reported as the invalid-number message, the
underlying data operation is not invoked, the database is unchanged and the
loop continues. -/
theorem menu_invalid_number (db : DB) (hoje : String) (inp : MenuInput)
    (hch : inp.escolha = "3" ∨ inp.escolha = "4" ∨ inp.escolha = "5")
    (hbad : inp.idIn = none ∨ (inp.escolha = "5" ∧ inp.valorIn = none)) :
    menuStep db hoje inp = (db, MenuAction.invalidNumber, true) := by
  rcases hch with h3 | h4 | h5
  · have hid : inp.idIn = none := by
      rcases hbad with h | ⟨h5, _⟩
      · exact h
      · rw [h3] at h5; exact absurd h5 (by decide)
    simp [menuStep, h3, hid]
  · have hid : inp.idIn = none := by
      rcases hbad with h | ⟨h5, _⟩
      · exact h
      · rw [h4] at h5; exact absurd h5 (by decide)
    simp [menuStep, h4, hid]
  · rcases hbad with hid | ⟨_, hval⟩
    · simp [menuStep, h5, hid]
    · cases hidc : inp.idIn <;> simp [menuStep, h5, hval, hidc]

theorem menu_invalid_number_witness :
    ((MenuInput.mk "4" "" "" "" none "" none).escolha = "3" ∨
      (MenuInput.mk "4" "" "" "" none "" none).escolha = "4" ∨
      (MenuInput.mk "4" "" "" "" none "" none).escolha = "5") ∧
    ((MenuInput.mk "4" "" "" "" none "" none).idIn = none ∨
      ((MenuInput.mk "4" "" "" "" none "" none).escolha = "5" ∧
        (MenuInput.mk "4" "" "" "" none "" none).valorIn = none)) ∧
    menuStep sampleDB "2026-10-12" (MenuInput.mk "4" "" "" "" none "" none) =
      (sampleDB, MenuAction.invalidNumber, true) :=
  ⟨Or.inr (Or.inl rfl), Or.inl rfl,
   menu_invalid_number sampleDB "2026-10-12" (MenuInput.mk "4" "" "" "" none "" none)
     (Or.inr (Or.inl rfl)) (Or.inl rfl)⟩

/-- C10 counterexample: `NOT NULL` does not reject empty strings, so
`adicionar_cliente` with empty name and empty email succeeds on the fresh
database and creates a customer row whose name and email are both empty —
refuting the claim that a row with an empty name or empty email can never
be created. -/
theorem adicionar_cliente_accepts_empty_fields :
    (adicionar_cliente setup_database "" "" "").2 = AddClienteMsg.ok "" ∧
    (adicionar_cliente setup_database "" "" "").1.clientes =
      [⟨1, "", "", some ""⟩] :=
  ⟨rfl, rfl⟩

/-- C10 amended: the store requires `nome` and `email` to be non-NULL
(NULL is rejected by the schema), and `telefone` may be NULL; but
non-emptiness is not enforced — the application always binds text values,
so an insert with empty name and email succeeds whenever the empty email is
not already taken. -/
theorem clientes_store_constraints (db : DB) (n e : String) (t : Option String)
    (hfreshE : ∀ c ∈ db.clientes, c.email ≠ e)
    (hfreshEmpty : ∀ c ∈ db.clientes, c.email ≠ "") :
    storeInsertCliente db none (some e) t = none ∧
    storeInsertCliente db (some n) none t = none ∧
    (storeInsertCliente db (some n) (some e) none).isSome = true ∧
    (adicionar_cliente db "" "" "").2 = AddClienteMsg.ok "" := by
  have hanyE : db.clientes.any (fun x => decide (x.email = e)) = false := by
    rw [List.any_eq_false]
    intro c hc
    simpa using hfreshE c hc
  have hanyEmpty : db.clientes.any (fun x => decide (x.email = "")) = false := by
    rw [List.any_eq_false]
    intro c hc
    simpa using hfreshEmpty c hc
  refine ⟨rfl, rfl, ?_, ?_⟩
  · simp [storeInsertCliente, hanyE]
  · simp [adicionar_cliente, storeInsertCliente, hanyEmpty]

theorem clientes_store_constraints_witness :
    (∀ c ∈ sampleDB.clientes, c.email ≠ "zoe@x.com") ∧
    (∀ c ∈ sampleDB.clientes, c.email ≠ "") ∧
    storeInsertCliente sampleDB none (some "zoe@x.com") (some "999") = none ∧
    storeInsertCliente sampleDB (some "Zoe") none (some "999") = none ∧
    (storeInsertCliente sampleDB (some "Zoe") (some "zoe@x.com") none).isSome = true ∧
    (adicionar_cliente sampleDB "" "" "").2 = AddClienteMsg.ok "" :=
  ⟨by decide, by decide,
   clientes_store_constraints sampleDB "Zoe" "zoe@x.com" (some "999")
     (by decide) (by decide)⟩

/-- Each single data operation preserves the no-orphaned-orders invariant. -/
theorem orphanFree_applyOp {db : DB} (h : OrphanFree db) (op : Op) :
    OrphanFree (applyOp db op) := by
  cases op with
  | listClientes => exact h
  | listPedidos => exact h
  | addCliente n e t =>
    cases hany : db.clientes.any (fun c => decide (c.email = e)) with
    | true => simpa [applyOp, adicionar_cliente, storeInsertCliente, hany] using h
    | false =>
      intro p hp
      simp only [applyOp, adicionar_cliente, storeInsertCliente, hany,
        Bool.false_eq_true, if_false] at hp ⊢
      obtain ⟨c, hc, hcid⟩ := h p hp
      exact ⟨c, List.mem_append_left _ hc, hcid⟩
  | updateCliente i n e t =>
    cases h1 : db.clientes.any (fun c => decide (c.id = i)) with
    | false => simpa [applyOp, atualizar_cliente, h1] using h
    | true =>
      cases h2 : db.clientes.any (fun c => decide (c.id ≠ i ∧ c.email = e)) with
      | true =>
        have heq : atualizar_cliente db i n e t = (db, UpdateMsg.emailConflict e) := by
          unfold atualizar_cliente
          rw [if_pos h1, if_pos h2]
        simpa [applyOp, heq] using h
      | false =>
        intro p hp
        simp only [applyOp, atualizar_cliente, h1, h2, Bool.false_eq_true,
          if_false, if_true] at hp ⊢
        obtain ⟨c, hc, hcid⟩ := h p hp
        refine ⟨(fun c => if c.id = i then
            { c with nome := n, email := e, telefone := some t } else c) c,
          List.mem_map.mpr ⟨c, hc, rfl⟩, ?_⟩
        have hid : (if c.id = i then
            { c with nome := n, email := e, telefone := some t } else c).id = c.id := by
          by_cases hci : c.id = i <;> simp [hci]
        exact hid.trans hcid
  | delCliente i =>
    cases hany : db.clientes.any (fun c => decide (c.id = i)) with
    | false => simpa [applyOp, deletar_cliente, deleteClienteStmt, hany] using h
    | true =>
      intro p hp
      simp only [applyOp, deletar_cliente, deleteClienteStmt, hany, if_true] at hp ⊢
      have hmem := List.mem_of_mem_filter hp
      have hne : p.cliente_id ≠ i := by simpa using List.of_mem_filter hp
      obtain ⟨c, hc, hcid⟩ := h p hmem
      exact ⟨c, List.mem_filter.mpr ⟨hc, by simpa [hcid] using hne⟩, hcid⟩
  | addPedido cid prod v hoje =>
    cases hany : db.clientes.any (fun c => decide (c.id = cid)) with
    | false => simpa [applyOp, adicionar_pedido, hany] using h
    | true =>
      intro p hp
      simp only [applyOp, adicionar_pedido, hany, if_true] at hp ⊢
      rcases List.mem_append.mp hp with hold | hnew
      · exact h p hold
      · have hpeq : p = ⟨db.nextPedidoId, prod, v, hoje, cid⟩ := by simpa using hnew
        subst hpeq
        obtain ⟨c, hc, hcid⟩ := List.any_eq_true.mp hany
        exact ⟨c, hc, by simpa using hcid⟩

/-- Folding any operation sequence preserves the no-orphans invariant. -/
theorem orphanFree_foldl :
    ∀ (ops : List Op) (db : DB), OrphanFree db → OrphanFree (ops.foldl applyOp db)
  | [], _, h => h
  | op :: ops, _, h => orphanFree_foldl ops _ (orphanFree_applyOp h op)

/-- C6: starting from the freshly initialized database, after any sequence
of the six operations every order's `cliente_id` references an existing
customer — no orphaned orders ever exist: `adicionar_pedido` checks customer
existence before inserting and `deletar_cliente` enables foreign-key
enforcement before deleting, so the cascade removes the owned orders. -/
theorem run_orphanFree (ops : List Op) : OrphanFree (run ops) :=
  orphanFree_foldl ops setup_database
    (fun p hp => absurd hp (by simp [setup_database]))

/-- The ORDER BY key is transitive. -/
theorem rowLE_trans (a b c : PedidoRow) (hab : rowLE a b = true)
    (hbc : rowLE b c = true) : rowLE a c = true := by
  simp only [rowLE, decide_eq_true_eq] at hab hbc ⊢
  rcases hab with h1 | ⟨h1, h1d⟩
  · rcases hbc with h2 | ⟨h2, h2d⟩
    · exact Or.inl (lt_trans h1 h2)
    · exact Or.inl (by rw [← h2]; exact h1)
  · rcases hbc with h2 | ⟨h2, h2d⟩
    · exact Or.inl (by rw [h1]; exact h2)
    · exact Or.inr ⟨h1.trans h2, le_trans h2d h1d⟩

/-- The ORDER BY key is total. -/
theorem rowLE_total (a b : PedidoRow) : (rowLE a b || rowLE b a) = true := by
  simp only [rowLE, Bool.or_eq_true, decide_eq_true_eq]
  rcases lt_trichotomy a.nome b.nome with h | h | h
  · exact Or.inl (Or.inl h)
  · rcases le_total b.data a.data with hd | hd
    · exact Or.inl (Or.inr ⟨h, hd⟩)
    · exact Or.inr (Or.inr ⟨h.symm, hd⟩)
  · exact Or.inr (Or.inl h)

/-- Membership in the unsorted join: with customer ids unique (primary key),
a row is in the join exactly when it is some order paired with its owning
customer. -/
theorem mem_joinRows {db : DB} (hids : (db.clientes.map Cliente.id).Nodup)
    (r : PedidoRow) :
    r ∈ joinRows db ↔ ∃ p ∈ db.pedidos, ∃ c ∈ db.clientes,
      c.id = p.cliente_id ∧
      r = ⟨p.id, p.produto, p.valor, p.data, c.nome, c.email⟩ := by
  unfold joinRows
  rw [List.mem_filterMap]
  constructor
  · rintro ⟨p, hp, hf⟩
    cases hfind : db.clientes.find? (fun x => decide (x.id = p.cliente_id)) with
    | none => rw [hfind] at hf; exact absurd hf (by simp)
    | some c =>
      rw [hfind, Option.map_some'] at hf
      have hr : r = ⟨p.id, p.produto, p.valor, p.data, c.nome, c.email⟩ :=
        (Option.some.injEq _ _ ▸ hf).symm
      exact ⟨p, hp, c, List.mem_of_find?_eq_some hfind,
        by simpa using List.find?_some hfind, hr⟩
  · rintro ⟨p, hp, c, hc, hcid, hr⟩
    refine ⟨p, hp, ?_⟩
    have hsome : (db.clientes.find? (fun x => decide (x.id = p.cliente_id))).isSome := by
      rw [List.find?_isSome]
      exact ⟨c, hc, by simpa using hcid⟩
    obtain ⟨c2, hfind⟩ := Option.isSome_iff_exists.mp hsome
    have hc2 : c2 ∈ db.clientes := List.mem_of_find?_eq_some hfind
    have hc2id : c2.id = p.cliente_id := by simpa using List.find?_some hfind
    have hceq : c2 = c :=
      List.inj_on_of_nodup_map hids hc2 hc (hc2id.trans hcid.symm)
    rw [hfind, hceq, Option.map_some', hr]

/-- C7: with customer ids unique (primary key), `listar_pedidos_com_clientes`
returns exactly the inner join of every order with its owning customer,
sorted by customer name ascending and, within equal names, by order date
descending. -/
theorem listar_pedidos_com_clientes_spec (db : DB)
    (hids : (db.clientes.map Cliente.id).Nodup) :
    (listar_pedidos_com_clientes db).Pairwise (fun a b => rowLE a b = true) ∧
    ∀ r, (r ∈ listar_pedidos_com_clientes db ↔
      ∃ p ∈ db.pedidos, ∃ c ∈ db.clientes, c.id = p.cliente_id ∧
        r = ⟨p.id, p.produto, p.valor, p.data, c.nome, c.email⟩) := by
  constructor
  · exact List.sorted_mergeSort rowLE_trans rowLE_total (joinRows db)
  · intro r
    rw [listar_pedidos_com_clientes, List.mem_mergeSort]
    exact mem_joinRows hids r

theorem listar_pedidos_com_clientes_spec_witness :
    (sampleDB.clientes.map Cliente.id).Nodup ∧
    ((listar_pedidos_com_clientes sampleDB).Pairwise (fun a b => rowLE a b = true) ∧
      ∀ r, (r ∈ listar_pedidos_com_clientes sampleDB ↔
        ∃ p ∈ sampleDB.pedidos, ∃ c ∈ sampleDB.clientes, c.id = p.cliente_id ∧
          r = ⟨p.id, p.produto, p.valor, p.data, c.nome, c.email⟩)) :=
  ⟨by decide, listar_pedidos_com_clientes_spec sampleDB (by decide)⟩

/-- Removing the unique element carrying key `b` under `f` shortens the list
by exactly one. -/
theorem length_filter_ne_of_nodup {α β : Type} [DecidableEq β] (f : α → β) (b : β) :
    ∀ l : List α, (l.map f).Nodup → (∃ a ∈ l, f a = b) →
      (l.filter (fun x => decide (f x ≠ b))).length + 1 = l.length
  | [], _, hex => absurd hex (by simp)
  | a :: l, hnd, hex => by
    simp only [List.map_cons, List.nodup_cons] at hnd
    by_cases hab : f a = b
    · have hl : l.filter (fun x => decide (f x ≠ b)) = l := by
        rw [List.filter_eq_self]
        intro x hx
        simp only [decide_eq_true_eq]
        intro hxb
        exact hnd.1 (by rw [hab, ← hxb]; exact List.mem_map_of_mem f hx)
      rw [List.filter_cons_of_neg (by simp [hab]), hl, List.length_cons]
    · have hex2 : ∃ a2 ∈ l, f a2 = b := by
        rcases hex with ⟨x, hx, hxb⟩
        rcases List.mem_cons.mp hx with rfl | hxl
        · exact absurd hxb hab
        · exact ⟨x, hxl, hxb⟩
      have ih := length_filter_ne_of_nodup f b l hnd.2 hex2
      rw [List.filter_cons_of_pos (by simp [hab]), List.length_cons,
        List.length_cons]
      omega

/-- C1: with customer `c` present and both surrogate keys unique (primary
keys), `deletar_cliente c.id` reports success, removes exactly the
customer's row, removes exactly its order rows (the cascade is enforced
because the delete connection turns foreign-key enforcement on before the
DELETE), and a subsequent `listar_pedidos_com_clientes` contains no row of
any deleted order. -/
theorem deletar_cliente_cascade (db : DB) (c : Cliente)
    (hc : c ∈ db.clientes)
    (hcid : (db.clientes.map Cliente.id).Nodup)
    (hpid : (db.pedidos.map Pedido.id).Nodup) :
    (deletar_cliente db c.id).2 = DeleteMsg.ok c.id ∧
    (deletar_cliente db c.id).1.clientes =
      db.clientes.filter (fun x => x.id ≠ c.id) ∧
    (deletar_cliente db c.id).1.clientes.length + 1 = db.clientes.length ∧
    (deletar_cliente db c.id).1.pedidos =
      db.pedidos.filter (fun p => p.cliente_id ≠ c.id) ∧
    (deletar_cliente db c.id).1.pedidos.length +
        (db.pedidos.filter (fun p => p.cliente_id = c.id)).length =
      db.pedidos.length ∧
    ∀ r ∈ listar_pedidos_com_clientes (deletar_cliente db c.id).1,
      ∀ p ∈ db.pedidos, p.cliente_id = c.id → r.pid ≠ p.id := by
  have hany : db.clientes.any (fun x => decide (x.id = c.id)) = true := by
    rw [List.any_eq_true]
    exact ⟨c, hc, by simp⟩
  have heq : deletar_cliente db c.id =
      ({ db with
         clientes := db.clientes.filter (fun x => decide (x.id ≠ c.id)),
         pedidos := db.pedidos.filter (fun p => decide (p.cliente_id ≠ c.id)) },
       DeleteMsg.ok c.id) := by
    unfold deletar_cliente deleteClienteStmt
    rw [if_pos hany]
    rfl
  refine ⟨by rw [heq], by rw [heq], ?_, by rw [heq], ?_, ?_⟩
  · rw [heq]
    exact length_filter_ne_of_nodup Cliente.id c.id db.clientes hcid ⟨c, hc, rfl⟩
  · rw [heq]
    have hpart := @List.length_eq_length_filter_add Pedido db.pedidos
      (fun p => decide (p.cliente_id = c.id))
    simp only [ne_eq, decide_not]
    omega
  · intro r hr p hp hpc hne
    rw [heq] at hr
    rw [listar_pedidos_com_clientes, List.mem_mergeSort] at hr
    rw [joinRows, List.mem_filterMap] at hr
    obtain ⟨p2, hp2, hf⟩ := hr
    have hp2mem : p2 ∈ db.pedidos := List.mem_of_mem_filter hp2
    have hp2ne : p2.cliente_id ≠ c.id := by
      simpa using List.of_mem_filter hp2
    have hrpid : r.pid = p2.id := by
      cases hfind : List.find? (fun x => decide (x.id = p2.cliente_id))
          (db.clientes.filter (fun x => decide (x.id ≠ c.id))) with
      | none => rw [hfind] at hf; exact absurd hf (by simp)
      | some c2 =>
        rw [hfind, Option.map_some'] at hf
        have : (⟨p2.id, p2.produto, p2.valor, p2.data, c2.nome, c2.email⟩ :
            PedidoRow) = r := Option.some.injEq _ _ ▸ hf
        rw [← this]
    have hp2p : p2 = p :=
      List.inj_on_of_nodup_map hpid hp2mem hp (by rw [← hrpid, hne])
    exact hp2ne (by rw [hp2p, hpc])

theorem deletar_cliente_cascade_witness :
    ((⟨1, "Ana", "ana@x.com", some "111"⟩ : Cliente) ∈ sampleDB.clientes ∧
      (sampleDB.clientes.map Cliente.id).Nodup ∧
      (sampleDB.pedidos.map Pedido.id).Nodup) ∧
    ((deletar_cliente sampleDB 1).2 = DeleteMsg.ok 1 ∧
      (deletar_cliente sampleDB 1).1.clientes =
        sampleDB.clientes.filter (fun x => x.id ≠ (1 : Int)) ∧
      (deletar_cliente sampleDB 1).1.clientes.length + 1 =
        sampleDB.clientes.length ∧
      (deletar_cliente sampleDB 1).1.pedidos =
        sampleDB.pedidos.filter (fun p => p.cliente_id ≠ (1 : Int)) ∧
      (deletar_cliente sampleDB 1).1.pedidos.length +
          (sampleDB.pedidos.filter (fun p => p.cliente_id = (1 : Int))).length =
        sampleDB.pedidos.length ∧
      ∀ r ∈ listar_pedidos_com_clientes (deletar_cliente sampleDB 1).1,
        ∀ p ∈ sampleDB.pedidos, p.cliente_id = 1 → r.pid ≠ p.id) :=
  ⟨⟨by decide, by decide, by decide⟩,
   deletar_cliente_cascade sampleDB ⟨1, "Ana", "ana@x.com", some "111"⟩
     (by decide) (by decide) (by decide)⟩

end SistemaCads
